import Mathlib

/-!
Verification of the Pokedx list/detail synchronizers and the debouncer.

The definitions below are a shallow embedding of the JavaScript source:
  - src/components/hooks/usePokemonList.jsx   (function downloadPokemon)
  - src/components/hooks/usePokemonDetails.jsx (function downloadPokemons)
  - the useDebounce hook from the repository README

JavaScript values that may be a string or null are modelled by StrVal;
fields that may be absent (undefined) are modelled by Option; a thrown
TypeError (property access on undefined) is modelled by JsErr.  React
state cells are modelled by explicit state records, and each setState
call appends the assigned state to an explicit trace/commit list.  A
non-functional setState that spreads the closure variable is modelled by
building the new state from the state the function was entered with (the
render-time snapshot), exactly as the stale-closure semantics of the
source dictate.
-/

namespace Pokedx

/-- A JavaScript value that is either a string or null (the shape of the
pagination cursors: the initial state uses the empty string, the API
response uses a URL string or null). -/
inductive StrVal
  | str (s : String)
  | null
deriving DecidableEq

/-- Convert an optional string field of a JSON response to the stored
JavaScript value: a present string stays a string, an absent/null field
is stored as null. -/
def StrVal.ofOpt : Option String → StrVal
  | some s => StrVal.str s
  | none => StrVal.null

/-- A named resource of the API: the elements of a page's results array
and the inner object of a type-member entry. -/
structure NamedRes where
  name : String
  url : String
deriving DecidableEq

/-- The JSON body of a list-page response. -/
structure PageResponse where
  count : Nat
  next : Option String
  previous : Option String
  results : List NamedRes
deriving DecidableEq

/-- One entry of the types array of a raw pokemon record. -/
structure TypeSlot where
  type : NamedRes
deriving DecidableEq

/-- The dream_world object inside the sprites of a raw record;
front_default may be null. -/
structure DreamWorld where
  front_default : Option String
deriving DecidableEq

/-- The other object inside sprites; dream_world may be absent. -/
structure OtherSprites where
  dream_world : Option DreamWorld
deriving DecidableEq

/-- The sprites object of a raw record; other may be absent or null. -/
structure Sprites where
  other : Option OtherSprites
deriving DecidableEq

/-- A raw pokemon detail record as returned by the API, restricted to the
fields the source reads.  The types field is Option because the detail
hook tests its truthiness (an absent field is falsy, any array - even an
empty one - is truthy). -/
structure RawPokemon where
  id : Nat
  name : String
  sprites : Sprites
  order : Int
  height : Int
  weight : Int
  types : Option (List TypeSlot)
deriving DecidableEq

/-- The value the list mapper stores in the image property: a URL string,
null (a present artwork object whose front_default is null), or the
numeric order field used as fallback. -/
inductive ImageVal
  | url (s : String)
  | nullv
  | num (n : Int)
deriving DecidableEq

/-- One element of the pokemonList produced by the list synchronizer. -/
structure ListItem where
  id : Nat
  name : String
  image : ImageVal
  types : Option (List TypeSlot)
deriving DecidableEq

/-- One entry of the pokemon array of a type-lookup response. -/
structure TypeMember where
  pokemon : NamedRes
deriving DecidableEq

/-- The JSON body of a type-lookup response. -/
structure TypeResponse where
  pokemon : List TypeMember
deriving DecidableEq

/-- A thrown JavaScript TypeError (property access on undefined). -/
inductive JsErr
  | typeError
deriving DecidableEq

instance {ε : Type u} {α : Type v} [DecidableEq ε] [DecidableEq α] :
    DecidableEq (Except ε α) := fun a b =>
  match a, b with
  | Except.ok x, Except.ok y =>
    if h : x = y then Decidable.isTrue (congrArg Except.ok h)
    else Decidable.isFalse fun hc => h (Except.ok.inj hc)
  | Except.error x, Except.error y =>
    if h : x = y then Decidable.isTrue (congrArg Except.error h)
    else Decidable.isFalse fun hc => h (Except.error.inj hc)
  | Except.ok _, Except.error _ => Decidable.isFalse fun hc => Except.noConfusion hc
  | Except.error _, Except.ok _ => Decidable.isFalse fun hc => Except.noConfusion hc

/-- The state cell of usePokemonList.  typeField models the extra type
property that usePokemonDetails writes into this state object; it is
absent (none) until that write happens. -/
structure ListState where
  pokemonList : List ListItem
  loading : Bool
  pokedexUrl : String
  prevUrl : StrVal
  nextUrl : StrVal
  typeField : Option String
deriving DecidableEq

/-- The initial state of usePokemonList, from its useState call. -/
def initialListState : ListState :=
  { pokemonList := []
    loading := true
    pokedexUrl := "https://pokeapi.co/api/v2/pokemon"
    prevUrl := StrVal.str ""
    nextUrl := StrVal.str ""
    typeField := none }

/-- The remote catalog, as a deterministic environment: the response
bodies of each endpoint, keyed by request URL. -/
structure Env where
  pageResp : String → PageResponse
  rawAt : String → RawPokemon
  typeResp : String → TypeResponse

/-- A network request issued by the code, tagged by endpoint kind. -/
inductive Request
  | page (url : String)
  | raw (url : String)
  | typeLookup (url : String)
deriving DecidableEq

/-- The per-item mapper of downloadPokemon (usePokemonList.jsx lines
43-53): image is sprites.other.dream_world.front_default when
sprites.other is truthy, else the order field.  When sprites.other is
present but dream_world is absent, the access dream_world.front_default
throws a TypeError. -/
def mapListItem (p : RawPokemon) : Except JsErr ListItem :=
  match p.sprites.other with
  | some o =>
    match o.dream_world with
    | some dw =>
      Except.ok
        { id := p.id
          name := p.name
          image :=
            match dw.front_default with
            | some s => ImageVal.url s
            | none => ImageVal.nullv
          types := p.types }
    | none => Except.error JsErr.typeError
  | none =>
    Except.ok { id := p.id, name := p.name, image := ImageVal.num p.order, types := p.types }

/-- Resolution events of a batch of parallel requests, applied to the
slot array of the join: event (j, a) is the resolution of the request at
index j with request payload a, storing its response in slot j. -/
def applyEvents (f : α → β) : List (Nat × α) → (Nat → Option β) → Nat → Option β
  | [], s => s
  | (j, a) :: rest, s =>
    applyEvents f rest (fun k => if k = j then some (f a) else s k)

/-- The slot array of a Promise.all join over the requests reqs after the
resolution events have been applied in arrival order. -/
def promiseAllSlots (f : α → β) (reqs : List α) (events : List (Nat × α)) : List (Option β) :=
  (List.range reqs.length).map (applyEvents f events (fun _ => none))

/-- The value Promise.all resolves with: the filled slots read out in
request order (arrival order only fills slots, it never reorders them). -/
def promiseAll (f : α → β) (reqs : List α) (events : List (Nat × α)) : List β :=
  (promiseAllSlots f reqs events).filterMap id

/-- The list (j, l_0), (j+1, l_1), ... of the elements of l indexed from
j: the index a batch request occupies in the request array. -/
def indexedFrom : Nat → List α → List (Nat × α)
  | _, [] => []
  | j, a :: as => (j, a) :: indexedFrom (j + 1) as

/-- The outcome of one run of downloadPokemon (usePokemonList.jsx lines
14-59): the successive values of the state cell (starting with the
render-time snapshot the closure captured), the requests issued, and the
error of a thrown TypeError if the mapper crashed. -/
structure ListRun where
  trace : List ListState
  requests : List Request
  err : Option JsErr
deriving DecidableEq

/-- One run of downloadPokemon from the render snapshot s0, with the
detail responses of the page arriving in the order given by events.
The four setPokemonListState calls of the source are, in order:
  1. a non-functional spread of the closure with loading true;
  2. a functional update writing nextUrl and prevUrl - both from
     response.data.next (the source assigns prevUrl from next);
  3. a non-functional spread of the closure writing the same two fields,
     which therefore resets loading and pokemonList to the snapshot s0;
  4. a functional update committing pokemonList and loading false. -/
def downloadPokemon (env : Env) (events : List (Nat × String)) (s0 : ListState) : ListRun :=
  let s1 : ListState := { s0 with loading := true }
  let page := env.pageResp s0.pokedexUrl
  let s2 : ListState :=
    { s1 with nextUrl := StrVal.ofOpt page.next, prevUrl := StrVal.ofOpt page.next }
  let s3 : ListState :=
    { s0 with nextUrl := StrVal.ofOpt page.next, prevUrl := StrVal.ofOpt page.next }
  let urls := page.results.map NamedRes.url
  let raws := promiseAll env.rawAt urls events
  let outcome := raws.mapM mapListItem
  { trace :=
      match outcome with
      | Except.error _ => [s0, s1, s2, s3]
      | Except.ok items => [s0, s1, s2, s3, { s3 with pokemonList := items, loading := false }]
    requests := Request.page s0.pokedexUrl :: urls.map Request.raw
    err :=
      match outcome with
      | Except.error e => some e
      | Except.ok _ => none }

/-- The detail-fetch URL of the detail hook (usePokemonDetails.jsx line
12), parameterized by the identifier. -/
def detailUrl (id : String) : String := "https://pokeapi.co/api/v2/pokemon/" ++ id

/-- The type-lookup URL of the detail hook (usePokemonDetails.jsx lines
14-18), parameterized by the type name spliced into the template. -/
def typeUrl (t : String) : String := "https://pokeapi.co/api/v2/type/" ++ t

/-- The ternary response.data.types ? response.data.types[0].type.name : ''
of the source.  An absent types field is falsy, so the ternary yields the
empty string; a present array - even an empty one - is truthy, so the
source indexes it, and on an empty array types[0] is undefined and the
access .type throws a TypeError. -/
def typeNameExpr (r : RawPokemon) : Except JsErr String :=
  match r.types with
  | none => Except.ok ""
  | some ts =>
    match ts.head? with
    | none => Except.error JsErr.typeError
    | some t0 => Except.ok t0.type.name

/-- The image expression of the detail hook (usePokemonDetails.jsx line
24): response.data.sprites.other.dream_world.front_default with no
truthiness guard, so an absent other or dream_world throws a TypeError. -/
def detailImage (r : RawPokemon) : Except JsErr (Option String) :=
  match r.sprites.other with
  | none => Except.error JsErr.typeError
  | some o =>
    match o.dream_world with
    | none => Except.error JsErr.typeError
    | some dw => Except.ok dw.front_default

/-- The expression response.data.types.map(t => t.type.name) of the
detail hook: throws when types is absent. -/
def typesNames (r : RawPokemon) : Except JsErr (List String) :=
  match r.types with
  | none => Except.error JsErr.typeError
  | some ts => Except.ok (ts.map fun t => t.type.name)

/-- The state object the detail hook commits with setPokemons
(usePokemonDetails.jsx lines 22-29): a complete record, every field
present. -/
structure DetailRecord where
  name : String
  image : Option String
  height : Int
  weight : Int
  types : List String
  similarPokemons : List TypeMember
deriving DecidableEq

/-- The outcome of one run of downloadPokemons (usePokemonDetails.jsx
lines 10-35): the requests issued, the successive values assigned to the
pokemons state cell, the value written into the list synchronizer's
state cell (if that write is reached), and the thrown TypeError if the
run crashed. -/
structure DetailRun where
  requests : List Request
  commits : List DetailRecord
  listWrite : Option ListState
  err : Option JsErr
deriving DecidableEq

/-- One run of downloadPokemons for identifier id.  prev is the current
value of the pokemons state cell (the source closes over it but never
reads it); list0 is the render snapshot of the list synchronizer's state
that the final non-functional setPokemonListState spreads.  Evaluation
order follows the source: the detail fetch, then the type-URL template
(whose ternary may throw), then the type fetch, then the setPokemons
object literal (image first, then the types map), then the list-state
write. -/
def downloadPokemons (env : Env) (id : String) (prev : Option DetailRecord)
    (list0 : ListState) : DetailRun :=
  let r := env.rawAt (detailUrl id)
  match typeNameExpr r with
  | Except.error e =>
    { requests := [Request.raw (detailUrl id)], commits := [], listWrite := none, err := some e }
  | Except.ok tn =>
    let tresp := env.typeResp (typeUrl tn)
    match detailImage r with
    | Except.error e =>
      { requests := [Request.raw (detailUrl id), Request.typeLookup (typeUrl tn)]
        commits := []
        listWrite := none
        err := some e }
    | Except.ok img =>
      match typesNames r with
      | Except.error e =>
        { requests := [Request.raw (detailUrl id), Request.typeLookup (typeUrl tn)]
          commits := []
          listWrite := none
          err := some e }
      | Except.ok tys =>
        let d : DetailRecord :=
          { name := r.name
            image := img
            height := r.height
            weight := r.weight
            types := tys
            similarPokemons := tresp.pokemon.take 5 }
        { requests := [Request.raw (detailUrl id), Request.typeLookup (typeUrl tn)]
          commits := [d]
          listWrite := some { list0 with typeField := some tn }
          err := none }

/-- Modelled from the spec: the routing layer (CustomRoutes.jsx is
referenced from App.jsx but is not among the source files) remounts the
detail view on every identifier change, discarding the previous instance
(spec section 4.2 step 5, and the design note on forcing remount via a
changing key); each mount runs the detail effect once with a fresh empty
state cell, so a viewing history is a list of identifiers and each entry
triggers one run of downloadPokemons with prev = none. -/
def mountDetailSequence (env : Env) (list0 : ListState) (ids : List String) : List Request :=
  ids.flatMap fun i => (downloadPokemons env i none list0).requests

/-- The identifier-endpoint URL of a request, when it is a detail-record
request (used to project the detail fetches out of a request log). -/
def rawReqUrl : Request → Option String
  | Request.raw u => some u
  | _ => none

/-- Mounting the detail page: usePokemonDetails (id) calls usePokemonList
(line 8), whose effect runs downloadPokemon from the fresh initial list
state, and registers its own effect running downloadPokemons with the
fresh empty pokemons cell and the initial list state as render snapshot. -/
def mountPokemonDetails (env : Env) (events : List (Nat × String)) (id : String)
    (prev : Option DetailRecord) : ListRun × DetailRun :=
  (downloadPokemon env events initialListState, downloadPokemons env id prev initialListState)

/-- All requests issued by mounting the detail page. -/
def mountRequests (env : Env) (events : List (Nat × String)) (id : String)
    (prev : Option DetailRecord) : List Request :=
  (mountPokemonDetails env events id prev).1.requests
    ++ (mountPokemonDetails env events id prev).2.requests

/-- The trailing-edge debouncer of useDebounce (repository README):
processing loop after the first invocation has scheduled a timer.  ft
and a are the pending timer's fire time and arguments.  A later
invocation at time t finds the timer already fired when ft is not after
t (the callback ran, so it is recorded as fired); otherwise clearTimeout
cancels it.  Either way the invocation schedules a fresh timer at
t + delay with its own arguments; when invocations stop, the pending
timer fires. -/
def debounceAux (delay : Nat) (ft : Nat) (a : α) : List (Nat × α) → List (Nat × α)
  | [] => [(ft, a)]
  | (t, b) :: rest =>
    if ft ≤ t then (ft, a) :: debounceAux delay (t + delay) b rest
    else debounceAux delay (t + delay) b rest

/-- The calls to the wrapped callback fired by the debounced callable
over a whole time-ordered invocation sequence (pairs of invocation time
and arguments); each fired call is the pair of its fire time and the
arguments it was invoked with. -/
def useDebounce (delay : Nat) : List (Nat × α) → List (Nat × α)
  | [] => []
  | (t, a) :: rest => debounceAux delay (t + delay) a rest

/-! Concrete test fixtures: small environments used to evaluate the
embedded code on specific inputs. -/

/-- A raw record whose sprites.other is absent (so the list mapper takes
the order fallback) and whose types array has one entry. -/
def rawPlain (n : String) (i : Nat) : RawPokemon :=
  { id := i
    name := n
    sprites := { other := none }
    order := 7
    height := 1
    weight := 2
    types := some [{ type := { name := "grass", url := "tg" } }] }

/-- A catalog whose root page has two summaries and distinct next and
previous cursors. -/
def env1 : Env :=
  { pageResp := fun _ =>
      { count := 2
        next := some "NEXT"
        previous := some "PREV"
        results := [{ name := "a", url := "ua" }, { name := "b", url := "ub" }] }
    rawAt := fun u => if u = "ua" then rawPlain "a" 1 else rawPlain "b" 2
    typeResp := fun _ => { pokemon := [] } }

/-- Detail responses arriving in request order. -/
def events1 : List (Nat × String) := [(0, "ua"), (1, "ub")]

/-- Detail responses arriving in reversed order: the second request
resolves before the first. -/
def eventsRev : List (Nat × String) := [(1, "ub"), (0, "ua")]

/-- The mapped item of the first summary of env1. -/
def itemA : ListItem :=
  { id := 1
    name := "a"
    image := ImageVal.num 7
    types := some [{ type := { name := "grass", url := "tg" } }] }

/-- The mapped item of the second summary of env1. -/
def itemB : ListItem :=
  { id := 2
    name := "b"
    image := ImageVal.num 7
    types := some [{ type := { name := "grass", url := "tg" } }] }

/-- An item of a previously displayed page. -/
def itemOld : ListItem := { id := 99, name := "old", image := ImageVal.num 7, types := some [] }

/-- The render snapshot right after a pagination click: the previous
page's items are displayed (loading is false) and pokedexUrl has just
been set to the clicked cursor. -/
def s0PageTwo : ListState :=
  { pokemonList := [itemOld]
    loading := false
    pokedexUrl := "https://pokeapi.co/api/v2/pokemon?offset=20"
    prevUrl := StrVal.str ""
    nextUrl := StrVal.str ""
    typeField := none }

/-- The single call that ends a debounce processing loop in which no
timer ever fires early: the pending timer itself when no invocation
remains, else the timer scheduled by the last remaining invocation. -/
def lastFire (delay : Nat) (ft : Nat) (a : α) (rest : List (Nat × α)) : Nat × α :=
  match rest.getLast? with
  | none => (ft, a)
  | some p => (p.1 + delay, p.2)

/-- A raw record whose types field is the empty array (a pokemon with
zero categories). -/
def rawEmptyTypes : RawPokemon :=
  { id := 3
    name := "notypes"
    sprites := { other := some { dream_world := some { front_default := some "img" } } }
    order := 3
    height := 1
    weight := 1
    types := some [] }

/-- A catalog whose every detail endpoint returns the zero-category
record. -/
def env4 : Env :=
  { pageResp := fun _ => { count := 0, next := none, previous := none, results := [] }
    rawAt := fun _ => rawEmptyTypes
    typeResp := fun _ => { pokemon := [] } }

/-- A type-lookup member with the given name. -/
def tm (s : String) : TypeMember := { pokemon := { name := s, url := s } }

/-- A type-lookup response body with twelve members. -/
def typeMembers12 : List TypeMember :=
  [tm "m0", tm "m1", tm "m2", tm "m3", tm "m4", tm "m5", tm "m6", tm "m7", tm "m8",
    tm "m9", tm "m10", tm "m11"]

/-- A well-formed raw record with one category and present artwork. -/
def rawGrass : RawPokemon :=
  { id := 1
    name := "bulbasaur"
    sprites := { other := some { dream_world := some { front_default := some "art" } } }
    order := 1
    height := 7
    weight := 69
    types := some [{ type := { name := "grass", url := "gurl" } }] }

/-- A catalog whose detail endpoint returns rawGrass and whose
type-lookup endpoint returns the twelve-member response. -/
def env5 : Env :=
  { pageResp := fun _ => { count := 0, next := none, previous := none, results := [] }
    rawAt := fun _ => rawGrass
    typeResp := fun _ => { pokemon := typeMembers12 } }

/-- The record the detail hook commits for rawGrass under env5. -/
def d5 : DetailRecord :=
  { name := "bulbasaur"
    image := some "art"
    height := 7
    weight := 69
    types := ["grass"]
    similarPokemons := typeMembers12.take 5 }

/-- A raw record with one category but no alternate artwork
(sprites.other absent). -/
def rawNoArt : RawPokemon :=
  { id := 8
    name := "noart"
    sprites := { other := none }
    order := 42
    height := 1
    weight := 1
    types := some [{ type := { name := "fire", url := "fu" } }] }

/-- A catalog whose detail endpoint returns the artwork-less record. -/
def env8 : Env :=
  { pageResp := fun _ => { count := 0, next := none, previous := none, results := [] }
    rawAt := fun _ => rawNoArt
    typeResp := fun _ => { pokemon := [] } }

/-- C1: the spec claims the recorded prevCursor equals the previous field
of the page response.  Evaluating downloadPokemon on a page whose next
and previous cursors differ shows the code records both nextUrl and
prevUrl from the next field: the final state's prevUrl is the next
cursor, not the previous one.  (The nextCursor half of the claim holds.) -/
theorem c1_prevCursor_recorded_from_next :
    (env1.pageResp initialListState.pokedexUrl).previous = some "PREV" ∧
    (env1.pageResp initialListState.pokedexUrl).next = some "NEXT" ∧
    ((downloadPokemon env1 events1 initialListState).trace.map ListState.prevUrl).getLast?
      = some (StrVal.str "NEXT") ∧
    ((downloadPokemon env1 events1 initialListState).trace.map ListState.nextUrl).getLast?
      = some (StrVal.str "NEXT") := by
  refine ⟨rfl, rfl, ?_, ?_⟩ <;> rfl

/-- C2: the spec claims loading stays true from cursor change until the
full page is committed.  Evaluating downloadPokemon from the render
snapshot of a pagination click shows the third setState (the
non-functional spread of the stale closure) resets loading to false
while the previous page's single item is still in the state and the new
page's two items have not been committed yet: trace index 3 exposes
loading = false with the stale list, and only the later final state
(index 4) holds the new page. -/
theorem c2_stale_closure_resets_loading :
    ((downloadPokemon env1 events1 s0PageTwo).trace.get? 3).map
        (fun s => (s.loading, s.pokemonList)) = some (false, [itemOld]) ∧
    ((downloadPokemon env1 events1 s0PageTwo).trace.get? 4).map
        (fun s => (s.loading, s.pokemonList)) = some (false, [itemA, itemB]) ∧
    ([itemOld] : List ListItem) ≠ [itemA, itemB] := by
  refine ⟨rfl, rfl, by decide⟩

/-- An event list never touching slot j leaves it unchanged. -/
theorem applyEvents_not_mem (f : α → β) (events : List (Nat × α)) (s : Nat → Option β)
    (j : Nat) (h : j ∉ events.map Prod.fst) : applyEvents f events s j = s j := by
  induction events generalizing s with
  | nil => rfl
  | cons e rest ih =>
    obtain ⟨k, a⟩ := e
    simp only [List.map_cons, List.mem_cons, not_or] at h
    simp only [applyEvents]
    rw [ih _ h.2]
    simp [h.1]

/-- With pairwise-distinct slot indices, the event (j, a) determines the
final content of slot j, whatever order the events arrive in. -/
theorem applyEvents_mem (f : α → β) (events : List (Nat × α)) (s : Nat → Option β)
    (j : Nat) (a : α) (hnd : (events.map Prod.fst).Nodup) (hmem : (j, a) ∈ events) :
    applyEvents f events s j = some (f a) := by
  induction events generalizing s with
  | nil => cases hmem
  | cons e rest ih =>
    obtain ⟨k, b⟩ := e
    simp only [List.map_cons, List.nodup_cons] at hnd
    rcases List.mem_cons.mp hmem with heq | hmemr
    · injection heq with h1 h2
      subst h1
      subst h2
      simp only [applyEvents]
      rw [applyEvents_not_mem f rest _ j hnd.1]
      simp
    · simp only [applyEvents]
      exact ih _ hnd.2 hmemr

/-- The slot indices of an indexed request list are the consecutive
naturals starting at the base index. -/
theorem map_fst_indexedFrom (l : List α) :
    ∀ k, (indexedFrom k l).map Prod.fst = List.range' k l.length := by
  induction l with
  | nil => intro k; rfl
  | cons a as ih =>
    intro k
    simp only [indexedFrom, List.map_cons, List.length_cons, ih]
    rfl

/-- Every position of the request list occurs, with its element, in the
indexed request list. -/
theorem indexedFrom_get_mem (l : List α) :
    ∀ (k j : Nat) (h : j < l.length), (k + j, l.get ⟨j, h⟩) ∈ indexedFrom k l := by
  induction l with
  | nil => intro k j h; simp at h
  | cons a as ih =>
    intro k j h
    cases j with
    | zero => simp [indexedFrom]
    | succ j' =>
      have hj' : j' < as.length := Nat.lt_of_succ_lt_succ h
      have hmem := ih (k + 1) j' hj'
      have harith : k + 1 + j' = k + (j' + 1) := by omega
      rw [harith] at hmem
      exact List.mem_cons.mpr (Or.inr hmem)

/-- When the events are exactly one resolution per request index (in any
arrival order), every slot of the join holds the response of its own
request: the slot array equals the response list in request order. -/
theorem promiseAllSlots_perm (f : α → β) (reqs : List α) (events : List (Nat × α))
    (hperm : events.Perm (indexedFrom 0 reqs)) :
    promiseAllSlots f reqs events = reqs.map (fun a => some (f a)) := by
  have hnd : (events.map Prod.fst).Nodup := by
    have h2 : (events.map Prod.fst).Perm ((indexedFrom 0 reqs).map Prod.fst) :=
      hperm.map Prod.fst
    rw [map_fst_indexedFrom] at h2
    exact h2.nodup_iff.mpr (List.nodup_range' 0 reqs.length)
  apply List.ext_get?
  intro j
  by_cases hj : j < reqs.length
  · rw [promiseAllSlots, List.get?_map, List.get?_range hj, List.get?_map,
      List.get?_eq_get hj]
    have hmem : (j, reqs.get ⟨j, hj⟩) ∈ events := by
      apply hperm.mem_iff.mpr
      have := indexedFrom_get_mem reqs 0 j hj
      simpa using this
    simp only [Option.map_some']
    rw [applyEvents_mem f events _ j _ hnd hmem]
  · have hjle : reqs.length ≤ j := Nat.le_of_not_lt hj
    have h1 : (List.range reqs.length).get? j = none :=
      List.get?_eq_none.mpr (by simpa using hjle)
    have h2 : (reqs.map (fun a => some (f a))).get? j = none :=
      List.get?_eq_none.mpr (by simpa using hjle)
    rw [promiseAllSlots, List.get?_map, h1, h2]
    rfl

/-- Reading out a slot array in which every slot is filled yields the
underlying values. -/
theorem filterMap_id_map_some (f : α → β) (l : List α) :
    (l.map fun a => some (f a)).filterMap id = l.map f := by
  induction l with
  | nil => rfl
  | cons a as ih => simp [List.filterMap_cons, ih]

/-- Promise.all resolves with the responses in request order, for every
arrival order of the individual resolutions. -/
theorem promiseAll_perm (f : α → β) (reqs : List α) (events : List (Nat × α))
    (hperm : events.Perm (indexedFrom 0 reqs)) :
    promiseAll f reqs events = reqs.map f := by
  rw [promiseAll, promiseAllSlots_perm f reqs events hperm]
  exact filterMap_id_map_some f reqs

/-- C3: the committed pokemonList of downloadPokemon has the order of the
results array of the page response, for every order in which the detail
fetches resolve: whenever the events are a permutation of the indexed
request list and the mapper succeeds on the responses taken in results
order, the final committed state holds exactly that results-ordered
item list. -/
theorem c3_order_invariant (env : Env) (s0 : ListState) (events : List (Nat × String))
    (items : List ListItem)
    (hperm : events.Perm (indexedFrom 0 ((env.pageResp s0.pokedexUrl).results.map NamedRes.url)))
    (hmap : (((env.pageResp s0.pokedexUrl).results.map NamedRes.url).map env.rawAt).mapM
        mapListItem = Except.ok items) :
    ∃ s, (downloadPokemon env events s0).trace.getLast? = some s
      ∧ s.pokemonList = items ∧ s.loading = false := by
  have hr := promiseAll_perm env.rawAt
    ((env.pageResp s0.pokedexUrl).results.map NamedRes.url) events hperm
  simp only [downloadPokemon, hr, hmap]
  exact ⟨_, rfl, rfl, rfl⟩

/-- C3 witness: with the two detail responses of env1 arriving in
reversed order, the committed list is still [itemA, itemB], the results
order. -/
theorem c3_order_invariant_witness :
    ∃ s, (downloadPokemon env1 eventsRev initialListState).trace.getLast? = some s
      ∧ s.pokemonList = [itemA, itemB] ∧ s.loading = false :=
  c3_order_invariant env1 initialListState eventsRev [itemA, itemB] (by decide) (by decide)

/-- C4: the spec claims that on a detail with zero categories the
category lookup is skipped, the related-items collection is empty and
this is not an error.  Evaluating downloadPokemons on a detail whose
types array is empty shows the code instead throws a TypeError while
building the type-lookup URL (an empty array is truthy, so the source
indexes it and dereferences undefined): the run errors, commits nothing,
and only the detail request was issued. -/
theorem c4_empty_categories_throw :
    (env4.rawAt (detailUrl "3")).types = some [] ∧
    (downloadPokemons env4 "3" none initialListState).err = some JsErr.typeError ∧
    (downloadPokemons env4 "3" none initialListState).commits = [] ∧
    (downloadPokemons env4 "3" none initialListState).requests
      = [Request.raw (detailUrl "3")] := by
  exact ⟨rfl, rfl, rfl, rfl⟩

/-- C5: whenever downloadPokemons commits a detail record, its
similarPokemons are exactly the first min(n, 5) members of the
category-lookup response, in the response's own order. -/
theorem c5_category_truncation (env : Env) (id : String) (prev : Option DetailRecord)
    (list0 : ListState) (tn : String) (d : DetailRecord)
    (htn : typeNameExpr (env.rawAt (detailUrl id)) = Except.ok tn)
    (hd : (downloadPokemons env id prev list0).commits = [d]) :
    d.similarPokemons.length = min (env.typeResp (typeUrl tn)).pokemon.length 5 ∧
    ∀ i, i < d.similarPokemons.length →
      d.similarPokemons.get? i = (env.typeResp (typeUrl tn)).pokemon.get? i := by
  have hsim : d.similarPokemons = (env.typeResp (typeUrl tn)).pokemon.take 5 := by
    cases h1 : detailImage (env.rawAt (detailUrl id)) with
    | error e => simp [downloadPokemons, htn, h1] at hd
    | ok img =>
      cases h2 : typesNames (env.rawAt (detailUrl id)) with
      | error e => simp [downloadPokemons, htn, h1, h2] at hd
      | ok tys =>
        simp only [downloadPokemons, htn, h1, h2, List.cons.injEq, and_true] at hd
        rw [← hd]
  constructor
  · rw [hsim, List.length_take, Nat.min_comm]
  · intro i hi
    rw [hsim] at hi
    rw [hsim]
    have hi5 : i < 5 := by
      rw [List.length_take] at hi
      omega
    exact List.get?_take hi5

/-- C5 witness: under env5 the committed record keeps exactly the first
five of the twelve category members, in order. -/
theorem c5_category_truncation_witness :
    (downloadPokemons env5 "1" none initialListState).commits = [d5] ∧
    d5.similarPokemons.length = min (env5.typeResp (typeUrl "grass")).pokemon.length 5 ∧
    d5.similarPokemons.get? 0 = (env5.typeResp (typeUrl "grass")).pokemon.get? 0 ∧
    d5.similarPokemons.get? 4 = (env5.typeResp (typeUrl "grass")).pokemon.get? 4 ∧
    d5.similarPokemons.get? 5 = none :=
  ⟨by decide,
    (c5_category_truncation env5 "1" none initialListState "grass" d5 (by rfl) (by decide)).1,
    (c5_category_truncation env5 "1" none initialListState "grass" d5 (by rfl) (by decide)).2
      0 (by decide),
    (c5_category_truncation env5 "1" none initialListState "grass" d5 (by rfl) (by decide)).2
      4 (by decide),
    by decide⟩

/-- Every run of downloadPokemons issues exactly one detail-record
request, for its own identifier, whatever else happens in the run. -/
theorem downloadPokemons_raw_requests (env : Env) (id : String) (prev : Option DetailRecord)
    (list0 : ListState) :
    (downloadPokemons env id prev list0).requests.filterMap rawReqUrl = [detailUrl id] := by
  cases h0 : typeNameExpr (env.rawAt (detailUrl id)) with
  | error e => simp [downloadPokemons, h0, rawReqUrl, List.filterMap_cons]
  | ok tn =>
    cases h1 : detailImage (env.rawAt (detailUrl id)) with
    | error e => simp [downloadPokemons, h0, h1, rawReqUrl, List.filterMap_cons]
    | ok img =>
      cases h2 : typesNames (env.rawAt (detailUrl id)) with
      | error e => simp [downloadPokemons, h0, h1, h2, rawReqUrl, List.filterMap_cons]
      | ok tys => simp [downloadPokemons, h0, h1, h2, rawReqUrl, List.filterMap_cons]

/-- C6: over any viewing history of identifiers, the detail-record
fetches issued are exactly one fresh fetch per history entry, in order:
switching from item A to item B and back to A issues a fresh fetch of
A's detail URL both times, with no cache short-circuiting any entry. -/
theorem c6_refetch_on_identifier_change (env : Env) (list0 : ListState) (ids : List String) :
    (mountDetailSequence env list0 ids).filterMap rawReqUrl = ids.map detailUrl := by
  induction ids with
  | nil => rfl
  | cons i rest ih =>
    simp only [mountDetailSequence, List.flatMap_cons, List.filterMap_append, List.map_cons]
    rw [downloadPokemons_raw_requests]
    simp only [mountDetailSequence] at ih
    rw [ih]
    rfl

/-- In a processing loop whose every remaining invocation arrives before
the pending timer fires (dense invocations), each invocation cancels the
pending timer, so the only call that ever fires is the final pending
timer. -/
theorem debounceAux_dense (delay : Nat) :
    ∀ (rest : List (Nat × α)) (ft : Nat) (a : α),
      (∀ q ∈ rest.head?, q.1 < ft) →
      rest.Chain' (fun p q => p.1 < q.1 ∧ q.1 < p.1 + delay) →
      debounceAux delay ft a rest = [lastFire delay ft a rest] := by
  intro rest
  induction rest with
  | nil => intro ft a _ _; rfl
  | cons q rest' ih =>
    intro ft a hhead hchain
    obtain ⟨t, b⟩ := q
    have hlt : t < ft := hhead (t, b) rfl
    have hch := List.chain'_cons'.mp hchain
    have hhead' : ∀ q' ∈ rest'.head?, q'.1 < t + delay := fun q' hq' => (hch.1 q' hq').2
    simp only [debounceAux]
    rw [if_neg (by omega)]
    rw [ih (t + delay) b hhead' hch.2]
    cases rest' with
    | nil => rfl
    | cons r rs =>
      have h1 : (r :: rs).getLast? = some ((r :: rs).getLast (List.cons_ne_nil r rs)) :=
        List.getLast?_eq_getLast _ _
      simp only [lastFire, List.getLast?_cons_cons, h1]

/-- C7 counterexample: the claim states that every finite invocation
sequence that stops produces exactly one call to the callback.  Two
invocations 2000 ms apart with a 1000 ms delay produce two calls: the
first timer has already fired when the second invocation arrives. -/
theorem c7_two_bursts_two_calls :
    useDebounce 1000 [(0, 1), (2000, 2)] = [(1000, 1), (3000, 2)] ∧
    (useDebounce 1000 [(0, 1), (2000, 2)]).length ≠ 1 := by
  exact ⟨rfl, by decide⟩

/-- C7 amended: for every nonempty invocation sequence whose consecutive
invocations are each less than delayMs apart, exactly one call to the
callback fires, delayMs after the last invocation, with the last
invocation's arguments; a never-invoked callable fires no call. -/
theorem c7_trailing_edge_debounce (delay : Nat) (invs : List (Nat × α)) (hne : invs ≠ [])
    (hgap : invs.Chain' fun p q => p.1 < q.1 ∧ q.1 < p.1 + delay) :
    useDebounce delay invs = [((invs.getLast hne).1 + delay, (invs.getLast hne).2)] ∧
    useDebounce delay ([] : List (Nat × α)) = [] := by
  refine ⟨?_, rfl⟩
  cases invs with
  | nil => exact absurd rfl hne
  | cons q rest =>
    obtain ⟨t, a⟩ := q
    have hch := List.chain'_cons'.mp hgap
    have hhead : ∀ q' ∈ rest.head?, q'.1 < t + delay := fun q' hq' => (hch.1 q' hq').2
    rw [useDebounce, debounceAux_dense delay rest (t + delay) a hhead hch.2]
    cases rest with
    | nil => rfl
    | cons r rs =>
      have h1 : (r :: rs).getLast? = some ((r :: rs).getLast (List.cons_ne_nil r rs)) :=
        List.getLast?_eq_getLast _ _
      simp only [lastFire, h1]
      rw [List.getLast_cons (List.cons_ne_nil r rs)]

/-- C7 amended witness: the claim's own example, invocations at t = 0,
100, 150, 900 with delay 1000, fires exactly one call, at t = 1900, with
the last invocation's arguments. -/
theorem c7_trailing_edge_debounce_witness :
    useDebounce 1000 [(0, 10), (100, 11), (150, 12), (900, 13)] = [(1900, 13)] ∧
    useDebounce 1000 ([] : List (Nat × Nat)) = [] := by
  have h := c7_trailing_edge_debounce 1000 [(0, 10), (100, 11), (150, 12), (900, 13)]
    (by decide) (by norm_num [List.chain'_cons])
  simpa using h

/-- C8 counterexample: the claim states that missing optional artwork is
substituted (never a failure) in both synchronizers.  On a raw record
with absent sprites.other, the list mapper does substitute the order
field, but the detail synchronizer's unguarded access throws: its run
errors and commits nothing. -/
theorem c8_detail_has_no_fallback :
    rawNoArt.sprites.other = none ∧
    mapListItem rawNoArt
      = Except.ok
          { id := 8, name := "noart", image := ImageVal.num 42,
            types := some [{ type := { name := "fire", url := "fu" } }] } ∧
    detailImage rawNoArt = Except.error JsErr.typeError ∧
    (downloadPokemons env8 "8" none initialListState).err = some JsErr.typeError ∧
    (downloadPokemons env8 "8" none initialListState).commits = [] := by
  exact ⟨rfl, rfl, rfl, rfl, rfl⟩

/-- C8 amended: for every raw record whose alternate-artwork object
(sprites.other) is absent, the List Synchronizer's mapper succeeds and
substitutes the order field as the image value; the Detail Synchronizer
performs no substitution and its image access fails with a TypeError. -/
theorem c8_artwork_fallback_list_only (r : RawPokemon) (h : r.sprites.other = none) :
    mapListItem r
      = Except.ok
          { id := r.id, name := r.name, image := ImageVal.num r.order, types := r.types } ∧
    detailImage r = Except.error JsErr.typeError := by
  constructor
  · rw [mapListItem, h]
  · rw [detailImage, h]

/-- C8 amended witness: the fallback dichotomy evaluated on the concrete
artwork-less record. -/
theorem c8_artwork_fallback_witness :
    rawNoArt.sprites.other = none ∧
    (mapListItem rawNoArt
        = Except.ok
            { id := rawNoArt.id, name := rawNoArt.name,
              image := ImageVal.num rawNoArt.order, types := rawNoArt.types } ∧
      detailImage rawNoArt = Except.error JsErr.typeError) :=
  ⟨rfl, c8_artwork_fallback_list_only rawNoArt rfl⟩

/-- C9: the detail synchronizer's whole outcome is independent of the
previous value of its state cell (each commit is a wholesale
replacement, never a merge), at most one commit happens per run, and any
committed record is a complete record - every field, including
similarPokemons, built from the two responses - which exists only if
both the detail request and the category request were issued. -/
theorem c9_single_wholesale_commit (env : Env) (id : String) (prev prev' : Option DetailRecord)
    (list0 : ListState) :
    downloadPokemons env id prev list0 = downloadPokemons env id prev' list0 ∧
    (downloadPokemons env id prev list0).commits.length ≤ 1 ∧
    ∀ d ∈ (downloadPokemons env id prev list0).commits,
      Request.raw (detailUrl id) ∈ (downloadPokemons env id prev list0).requests ∧
      ∃ tn, typeNameExpr (env.rawAt (detailUrl id)) = Except.ok tn ∧
        Request.typeLookup (typeUrl tn) ∈ (downloadPokemons env id prev list0).requests ∧
        ∃ img tys, detailImage (env.rawAt (detailUrl id)) = Except.ok img ∧
          typesNames (env.rawAt (detailUrl id)) = Except.ok tys ∧
          d = { name := (env.rawAt (detailUrl id)).name,
                image := img,
                height := (env.rawAt (detailUrl id)).height,
                weight := (env.rawAt (detailUrl id)).weight,
                types := tys,
                similarPokemons := (env.typeResp (typeUrl tn)).pokemon.take 5 } := by
  refine ⟨rfl, ?_, ?_⟩ <;>
  · cases h0 : typeNameExpr (env.rawAt (detailUrl id)) with
    | error e => simp [downloadPokemons, h0]
    | ok tn =>
      cases h1 : detailImage (env.rawAt (detailUrl id)) with
      | error e => simp [downloadPokemons, h0, h1]
      | ok img =>
        cases h2 : typesNames (env.rawAt (detailUrl id)) with
        | error e => simp [downloadPokemons, h0, h1, h2]
        | ok tys =>
          simp [downloadPokemons, h0, h1, h2]

/-- C9 witness: the run under env5 is the same whatever the previous
detail state was; it commits exactly the one complete record d5, and
both requests were issued. -/
theorem c9_single_wholesale_commit_witness :
    downloadPokemons env5 "1" none initialListState
      = downloadPokemons env5 "1" (some d5) initialListState ∧
    (downloadPokemons env5 "1" none initialListState).commits.length ≤ 1 ∧
    (Request.raw (detailUrl "1") ∈ (downloadPokemons env5 "1" none initialListState).requests ∧
      ∃ tn, typeNameExpr (env5.rawAt (detailUrl "1")) = Except.ok tn ∧
        Request.typeLookup (typeUrl tn)
          ∈ (downloadPokemons env5 "1" none initialListState).requests ∧
        ∃ img tys, detailImage (env5.rawAt (detailUrl "1")) = Except.ok img ∧
          typesNames (env5.rawAt (detailUrl "1")) = Except.ok tys ∧
          d5 = { name := (env5.rawAt (detailUrl "1")).name,
                 image := img,
                 height := (env5.rawAt (detailUrl "1")).height,
                 weight := (env5.rawAt (detailUrl "1")).weight,
                 types := tys,
                 similarPokemons := (env5.typeResp (typeUrl tn)).pokemon.take 5 }) :=
  ⟨(c9_single_wholesale_commit env5 "1" none (some d5) initialListState).1,
    (c9_single_wholesale_commit env5 "1" none (some d5) initialListState).2.1,
    (c9_single_wholesale_commit env5 "1" none (some d5) initialListState).2.2 d5 (by decide)⟩

/-- C10: mounting the detail view also instantiates a list synchronizer,
so the requests of the mount are the root page fetch plus one detail
fetch per summary of that page, followed by the detail hook's own
requests (which always include the item-detail fetch); and whenever the
detail run reaches its list-state write, it writes the type field into
the list synchronizer's state. -/
theorem c10_detail_mount_frame (env : Env) (events : List (Nat × String)) (id : String)
    (prev : Option DetailRecord) :
    mountRequests env events id prev
      = (Request.page initialListState.pokedexUrl
          :: ((env.pageResp initialListState.pokedexUrl).results.map NamedRes.url).map
              Request.raw)
        ++ (downloadPokemons env id prev initialListState).requests ∧
    Request.raw (detailUrl id) ∈ mountRequests env events id prev ∧
    ∀ w ∈ (downloadPokemons env id prev initialListState).listWrite,
      ∃ tn, typeNameExpr (env.rawAt (detailUrl id)) = Except.ok tn ∧
        w = { initialListState with typeField := some tn } := by
  have hreq : (downloadPokemon env events initialListState).requests
      = Request.page initialListState.pokedexUrl
        :: ((env.pageResp initialListState.pokedexUrl).results.map NamedRes.url).map
            Request.raw := rfl
  have hhead : ∀ prev0 : Option DetailRecord,
      Request.raw (detailUrl id) ∈ (downloadPokemons env id prev0 initialListState).requests := by
    intro prev0
    cases h0 : typeNameExpr (env.rawAt (detailUrl id)) with
    | error e => simp [downloadPokemons, h0]
    | ok tn =>
      cases h1 : detailImage (env.rawAt (detailUrl id)) with
      | error e => simp [downloadPokemons, h0, h1]
      | ok img =>
        cases h2 : typesNames (env.rawAt (detailUrl id)) with
        | error e => simp [downloadPokemons, h0, h1, h2]
        | ok tys => simp [downloadPokemons, h0, h1, h2]
  refine ⟨?_, ?_, ?_⟩
  · rw [mountRequests]
    simp only [mountPokemonDetails]
    rw [hreq]
  · rw [mountRequests]
    simp only [mountPokemonDetails]
    exact List.mem_append.mpr (Or.inr (hhead prev))
  · intro w hw
    cases h0 : typeNameExpr (env.rawAt (detailUrl id)) with
    | error e => simp [downloadPokemons, h0] at hw
    | ok tn =>
      cases h1 : detailImage (env.rawAt (detailUrl id)) with
      | error e => simp [downloadPokemons, h0, h1] at hw
      | ok img =>
        cases h2 : typesNames (env.rawAt (detailUrl id)) with
        | error e => simp [downloadPokemons, h0, h1, h2] at hw
        | ok tys =>
          simp only [downloadPokemons, h0, h1, h2, Option.mem_def, Option.some.injEq] at hw
          exact ⟨tn, rfl, hw.symm⟩

/-- C10 witness: the frame effect evaluated under env5 mounting the
detail view for identifier 1 with no resolution events and an empty
root page. -/
theorem c10_detail_mount_frame_witness :
    mountRequests env5 [] "1" none
      = (Request.page initialListState.pokedexUrl
          :: ((env5.pageResp initialListState.pokedexUrl).results.map NamedRes.url).map
              Request.raw)
        ++ (downloadPokemons env5 "1" none initialListState).requests ∧
    Request.raw (detailUrl "1") ∈ mountRequests env5 [] "1" none ∧
    (∃ tn, typeNameExpr (env5.rawAt (detailUrl "1")) = Except.ok tn ∧
      ({ initialListState with typeField := some "grass" } : ListState)
        = { initialListState with typeField := some tn }) :=
  ⟨(c10_detail_mount_frame env5 [] "1" none).1,
    (c10_detail_mount_frame env5 [] "1" none).2.1,
    (c10_detail_mount_frame env5 [] "1" none).2.2
      { initialListState with typeField := some "grass" } (by decide)⟩

end Pokedx
